import Mathlib

/-!
Verification development for the OTK Telegram-bot repository
(`app/clients/llm_client.py`, `app/clients/ollama_client.py`,
`app/clients/lmstudio_client.py`, `app/services/session_manager.py`,
`app/services/state_machine.py`, `app/models/schemas.py`).

The Python code is shallowly embedded: pure functions become Lean
functions, the in-memory session store and the database side effects
become explicit state passing, wall-clock timestamps become natural
numbers, and the external JSON library (`json.loads` / `json.dumps`)
is modelled by an executable JSON value type with a fuel-based parser
and a serializer.  External AI backends are modelled by an abstract
outcome value (the call either raises or returns a completion string),
since only the handling of the outcome is in scope.
-/

set_option autoImplicit false

/-- Model of a Python/JSON value as produced by `json.loads`.
Numeric literals are modelled as integers (the data extracted by this
program only uses integral numbers and strings). -/
inductive Json where
  | null
  | bool (b : Bool)
  | num (n : Int)
  | str (s : String)
  | arr (xs : List Json)
  | obj (kvs : List (String × Json))
deriving Repr, Inhabited

mutual

/-- Structural equality on JSON values (model of Python `==` on decoded data). -/
def Json.beq : Json → Json → Bool
  | .null, .null => true
  | .bool a, .bool b => a == b
  | .num a, .num b => a == b
  | .str a, .str b => a == b
  | .arr a, .arr b => Json.beqList a b
  | .obj a, .obj b => Json.beqMembers a b
  | _, _ => false

def Json.beqList : List Json → List Json → Bool
  | [], [] => true
  | x :: xs, y :: ys => Json.beq x y && Json.beqList xs ys
  | _, _ => false

def Json.beqMembers : List (String × Json) → List (String × Json) → Bool
  | [], [] => true
  | (k, x) :: xs, (l, y) :: ys => k == l && Json.beq x y && Json.beqMembers xs ys
  | _, _ => false

end

instance : BEq Json := ⟨Json.beq⟩

/-- The character `U+007B` (left curly brace). -/
def lbraceC : Char := Char.ofNat 123

/-- The character `U+007D` (right curly brace). -/
def rbraceC : Char := Char.ofNat 125

/-- JSON whitespace accepted between tokens by `json.loads`. -/
def jsonWs (c : Char) : Bool := c == ' ' || c == '\t' || c == '\n' || c == '\r'

/-- Skip leading JSON whitespace. -/
def skipWs (cs : List Char) : List Char := cs.dropWhile jsonWs

/-- Python dict construction from decoded key/value members: a repeated
key overwrites the earlier value in place (keeping the first position),
as `json.loads` builds a `dict`. -/
def insertKV : List (String × Json) → String → Json → List (String × Json)
  | [], k, v => [(k, v)]
  | (k', v') :: rest, k, v =>
    if k' == k then (k, v) :: rest else (k', v') :: insertKV rest k v

/-- Value of a hexadecimal digit character, if it is one. -/
def hexVal (c : Char) : Option Nat :=
  if c.isDigit then some (c.toNat - 48)
  else if 'a' ≤ c && c ≤ 'f' then some (c.toNat - 97 + 10)
  else if 'A' ≤ c && c ≤ 'F' then some (c.toNat - 65 + 10)
  else none

/-- Decode one string body after the opening quote; strict mode of
`json.loads`: unescaped control characters are rejected. -/
def parseStrBody : List Char → List Char → Option (String × List Char)
  | [], _ => none
  | c :: rest, acc =>
    if c == '"' then some (String.mk acc.reverse, rest)
    else if c == '\\' then
      match rest with
      | [] => none
      | e :: rest2 =>
        if e == '"' then parseStrBody rest2 ('"' :: acc)
        else if e == '\\' then parseStrBody rest2 ('\\' :: acc)
        else if e == '/' then parseStrBody rest2 ('/' :: acc)
        else if e == 'n' then parseStrBody rest2 ('\n' :: acc)
        else if e == 't' then parseStrBody rest2 ('\t' :: acc)
        else if e == 'r' then parseStrBody rest2 ('\r' :: acc)
        else if e == 'b' then parseStrBody rest2 (Char.ofNat 8 :: acc)
        else if e == 'f' then parseStrBody rest2 (Char.ofNat 12 :: acc)
        else if e == 'u' then
          match rest2 with
          | h1 :: h2 :: h3 :: h4 :: rest3 =>
            match hexVal h1, hexVal h2, hexVal h3, hexVal h4 with
            | some n1, some n2, some n3, some n4 =>
              parseStrBody rest3 (Char.ofNat (n1 * 4096 + n2 * 256 + n3 * 16 + n4) :: acc)
            | _, _, _, _ => none
          | _ => none
        else none
    else if c.toNat < 32 then none
    else parseStrBody rest (c :: acc)

/-- Decode a numeric literal (integers, with optional leading minus). -/
def parseNum (cs : List Char) : Option (Json × List Char) :=
  match cs with
  | c :: rest =>
    let (neg, cs1) := if c == '-' then (true, rest) else (false, cs)
    let digits := cs1.takeWhile Char.isDigit
    if digits.isEmpty then none
    else
      let n : Nat := digits.foldl (fun acc d => acc * 10 + (d.toNat - 48)) 0
      some (Json.num (if neg then -(n : Int) else (n : Int)), cs1.dropWhile Char.isDigit)
  | [] => none

/-- Expect the literal tail of `null` / `true` / `false`. -/
def expectLit (lit : List Char) (cs : List Char) (v : Json) : Option (Json × List Char) :=
  if lit.isPrefixOf cs then some (v, cs.drop lit.length) else none

mutual

/-- Decode one JSON value at the head of `cs` (whitespace already skipped). -/
def parseVal : Nat → List Char → Option (Json × List Char)
  | 0, _ => none
  | Nat.succ fuel, cs =>
    match cs with
    | [] => none
    | c :: rest =>
      if c == '"' then
        match parseStrBody rest [] with
        | some (s, r) => some (Json.str s, r)
        | none => none
      else if c == lbraceC then
        match skipWs rest with
        | d :: r2 =>
          if d == rbraceC then some (Json.obj [], r2)
          else parseMembers fuel (d :: r2) []
        | [] => none
      else if c == '[' then
        match skipWs rest with
        | d :: r2 =>
          if d == ']' then some (Json.arr [], r2)
          else parseElems fuel (d :: r2) []
        | [] => none
      else if c == 't' then expectLit ['r', 'u', 'e'] rest (Json.bool true)
      else if c == 'f' then expectLit ['a', 'l', 's', 'e'] rest (Json.bool false)
      else if c == 'n' then expectLit ['u', 'l', 'l'] rest Json.null
      else if c == '-' || c.isDigit then parseNum cs
      else none

/-- Decode the members of an object, positioned at a key string. -/
def parseMembers : Nat → List Char → List (String × Json) → Option (Json × List Char)
  | 0, _, _ => none
  | Nat.succ fuel, cs, acc =>
    match cs with
    | c :: rest =>
      if c == '"' then
        match parseStrBody rest [] with
        | some (k, r1) =>
          match skipWs r1 with
          | c2 :: r2 =>
            if c2 == ':' then
              match parseVal fuel (skipWs r2) with
              | some (v, r3) =>
                let acc2 := insertKV acc k v
                match skipWs r3 with
                | c3 :: r4 =>
                  if c3 == ',' then parseMembers fuel (skipWs r4) acc2
                  else if c3 == rbraceC then some (Json.obj acc2, r4)
                  else none
                | [] => none
              | none => none
            else none
          | [] => none
        | none => none
      else none
    | [] => none

/-- Decode the elements of an array, positioned at a value. -/
def parseElems : Nat → List Char → List Json → Option (Json × List Char)
  | 0, _, _ => none
  | Nat.succ fuel, cs, acc =>
    match parseVal fuel cs with
    | some (v, r1) =>
      match skipWs r1 with
      | c2 :: r2 =>
        if c2 == ',' then parseElems fuel (skipWs r2) (acc ++ [v])
        else if c2 == ']' then some (Json.arr (acc ++ [v]), r2)
        else none
      | [] => none
    | none => none

end

/-- Model of `json.loads`: decode the whole string as one JSON document,
rejecting trailing garbage. -/
def Json.parse (s : String) : Option Json :=
  match parseVal (2 * s.length + 2) (skipWs s.toList) with
  | some (v, rest) => if (skipWs rest).isEmpty then some v else none
  | none => none

/-- Hexadecimal digit character (lowercase), for escaping control characters. -/
def hexDigit (n : Nat) : Char :=
  if n < 10 then Char.ofNat (48 + n) else Char.ofNat (97 + (n - 10))

/-- Model of how `json.dumps` renders a string value
(`ensure_ascii=False`: non-ASCII characters are kept literal). -/
def dumpsString (s : String) : String :=
  let escape := fun (c : Char) =>
    if c == '"' then "\\\""
    else if c == '\\' then "\\\\"
    else if c == '\n' then "\\n"
    else if c == '\t' then "\\t"
    else if c == '\r' then "\\r"
    else if c == Char.ofNat 8 then "\\b"
    else if c == Char.ofNat 12 then "\\f"
    else if c.toNat < 32 then
      String.mk ['\\', 'u', '0', '0', hexDigit (c.toNat / 16), hexDigit (c.toNat % 16)]
    else String.mk [c]
  "\"" ++ String.join (s.toList.map escape) ++ "\""

mutual

/-- Model of `json.dumps(data, ensure_ascii=False)` with the default
separators; dict member order is preserved. -/
def Json.dumps : Json → String
  | .null => "null"
  | .bool b => if b then "true" else "false"
  | .num n => toString n
  | .str s => dumpsString s
  | .arr xs => "[" ++ String.intercalate ", " (Json.dumpsList xs) ++ "]"
  | .obj kvs => "\x7b" ++ String.intercalate ", " (Json.dumpsMembers kvs) ++ "\x7d"

def Json.dumpsList : List Json → List String
  | [] => []
  | x :: xs => Json.dumps x :: Json.dumpsList xs

def Json.dumpsMembers : List (String × Json) → List String
  | [] => []
  | (k, v) :: rest => (dumpsString k ++ ": " ++ Json.dumps v) :: Json.dumpsMembers rest

end

/-- Python `dict.get(key)` on a decoded JSON object (`None` when the key
is absent or the value is not a dict). Keys are unique by construction
(`insertKV`). -/
def Json.get : Json → String → Option Json
  | .obj kvs, k => go kvs k
  | _, _ => none
where
  go : List (String × Json) → String → Option Json
    | [], _ => none
    | (k', v) :: rest, k => if k' == k then some v else go rest k

/-- Python `isinstance(x, dict)`. -/
def Json.isObjB : Json → Bool
  | .obj _ => true
  | _ => false

/-- Python `isinstance(x, list)`. -/
def Json.isArrB : Json → Bool
  | .arr _ => true
  | _ => false

/-- Python truthiness of a decoded JSON value (`if order['status']:`). -/
def jsonTruthy : Json → Bool
  | .null => false
  | .bool b => b
  | .num n => n != 0
  | .str s => !(s == "")
  | .arr xs => !xs.isEmpty
  | .obj kvs => !kvs.isEmpty

/-- Python `str.find(char)`: index of the first occurrence. -/
def pyFind (cs : List Char) (c : Char) : Option Nat := cs.findIdx? (· == c)

/-- Python `str.rfind(char)`: index of the last occurrence. -/
def pyRFind (cs : List Char) (c : Char) : Option Nat :=
  match cs.reverse.findIdx? (· == c) with
  | some i => some (cs.length - 1 - i)
  | none => none

/-- Scan for the first position where `pat` occurs. -/
def findSubAux (pat : List Char) : List Char → Nat → Option Nat
  | [], _ => none
  | h :: rest, i => if pat.isPrefixOf (h :: rest) then some i else findSubAux pat rest (i + 1)

/-- Python `str.find(substring)` (position of first occurrence). -/
def findSub (hay pat : List Char) : Option Nat :=
  if pat.isEmpty then some 0 else findSubAux pat hay 0

/-- Python `substring in s`. -/
def containsSub (hay pat : List Char) : Bool := (findSub hay pat).isSome

/-- Python `str.strip()` (both ends). -/
def pyStrip (s : String) : String :=
  String.mk ((s.toList.dropWhile Char.isWhitespace).reverse.dropWhile Char.isWhitespace).reverse

/-- Python `str.startswith(pat)`. -/
def pyStartsWith (s pat : String) : Bool := pat.toList.isPrefixOf s.toList

/-- Python `str.endswith(pat)`. -/
def pyEndsWith (s pat : String) : Bool := pat.toList.isSuffixOf s.toList

/-- Split on newline characters (Python `str.split('\n')`). -/
def splitLinesGo : List Char → List Char → List String
  | [], acc => [String.mk acc.reverse]
  | c :: rest, acc =>
    if c == '\n' then String.mk acc.reverse :: splitLinesGo rest []
    else splitLinesGo rest (c :: acc)

/-- Python `str.split('\n')`. -/
def splitLines (s : String) : List String := splitLinesGo s.toList []

/-- Python `str.rstrip()`. -/
def pyRStrip (s : String) : String :=
  String.mk (s.toList.reverse.dropWhile Char.isWhitespace).reverse

/-- Model of Python `str.lower()` on the alphabets this program uses
(ASCII Latin and Cyrillic, including `Ё`). -/
def pyLowerChar (c : Char) : Char :=
  if 'A' ≤ c && c ≤ 'Z' then Char.ofNat (c.toNat + 32)
  else if 'А' ≤ c && c ≤ 'Я' then Char.ofNat (c.toNat + 32)
  else if c == 'Ё' then 'ё'
  else c

/-- Model of Python `str.lower()` (see `pyLowerChar`). -/
def pyLower (s : String) : String := String.mk (s.toList.map pyLowerChar)

/-- First-match lookup in an association list of strings
(model of `dict.get` on the literal synonym tables, whose keys are unique). -/
def lookupStr : List (String × String) → String → Option String
  | [], _ => none
  | (k, v) :: rest, s => if k == s then some v else lookupStr rest s

/-- `BotState` from `app/models/schemas.py`. -/
inductive BotState where
  | idle
  | processing
  | clarification
  | confirmation
  | cancellation
  | reports_menu
  | report_processing
deriving DecidableEq, Repr, Inhabited

/-- `StatusEnum` from `app/models/schemas.py`; the enum values are the
Russian strings "годно" / "в доработку" / "в брак". -/
inductive StatusEnum where
  | approved
  | rework
  | reject
deriving DecidableEq, Repr

/-- The string value of a `StatusEnum` member. -/
def StatusEnum.value : StatusEnum → String
  | .approved => "годно"
  | .rework => "в доработку"
  | .reject => "в брак"

/-- Pydantic validation of a `StatusEnum` field: a string is accepted
exactly when it is one of the three enum values. -/
def statusFromValue (s : String) : Option StatusEnum :=
  if s == "годно" then some .approved
  else if s == "в доработку" then some .rework
  else if s == "в брак" then some .reject
  else none

/-- `OrderData` from `app/models/schemas.py`. -/
structure OrderData where
  order_id : String
  status : Option StatusEnum := none
  comment : Option String := none
deriving DecidableEq, Repr

/-- `LLMResponse` from `app/models/schemas.py` (the `ExtractionResult`
of the spec). -/
structure LLMResponse where
  orders : List OrderData
  requires_correction : Bool
  clarification_question : Option String
deriving DecidableEq, Repr

/-- The synonym table of `normalize_status` in `app/clients/llm_client.py`. -/
def statusMapping : List (String × String) :=
  [("годно", "годно"), ("готов", "годно"), ("готово", "годно"),
   ("ок", "годно"), ("ok", "годно"), ("норм", "годно"),
   ("все хорошо", "годно"), ("принято", "годно"), ("одобрено", "годно"),
   ("все в порядке", "годно"),
   ("в доработку", "в доработку"), ("доработка", "в доработку"),
   ("доработать", "в доработку"), ("переделать", "в доработку"),
   ("исправить", "в доработку"), ("ремач", "в доработку"),
   ("нужна доработка", "в доработку"),
   ("в брак", "в брак"), ("брак", "в брак"), ("негоден", "в брак"),
   ("на списание", "в брак"), ("лом", "в брак"), ("все в брак", "в брак"),
   ("отклонен", "в брак")]

/-- `normalize_status` from `app/clients/llm_client.py`: lowercase and
strip the status, map it through the synonym table, and return the
original string unchanged when it is not in the table (or empty). -/
def normalize_status (status : String) : String :=
  if status == "" then status
  else
    let status_lower := pyStrip (pyLower status)
    match lookupStr statusMapping status_lower with
    | some v => v
    | none => status

/-- `OpenRouterLLMClient._clean_json_text`: drop the control characters
that are illegal inside JSON strings
(`[\x00-\x08\x0B\x0C\x0E-\x1F\x7F]`). -/
def isIllegalCtrl (c : Char) : Bool :=
  let n := c.toNat
  (n ≤ 8) || n == 11 || n == 12 || (14 ≤ n && n ≤ 31) || n == 127

/-- `OpenRouterLLMClient._clean_json_text` from `app/clients/llm_client.py`. -/
def cleanJsonText (s : String) : String :=
  String.mk (s.toList.filter (fun c => !isIllegalCtrl c))

/-- The brace-span / clean / decode steps of
`OpenRouterLLMClient._validate_llm_response`: find the first `\x7b` and the
last `\x7d`, require the latter strictly after the former, clean control
characters, and `json.loads` the slice; `none` models every path that
returns `False` (no braces, bad order, decode error). -/
def decodeSpan (s : String) : Option Json :=
  let cs := s.toList
  match pyFind cs lbraceC, pyRFind cs rbraceC with
  | some i, some j =>
    if i < j then Json.parse (cleanJsonText (String.mk ((cs.drop i).take (j + 1 - i))))
    else none
  | _, _ => none

/-- The required-top-level-fields check of `_validate_llm_response`. -/
def requiredFieldsOk (d : Json) : Bool :=
  (d.get "orders").isSome && (d.get "requires_correction").isSome &&
    (d.get "clarification_question").isSome

/-- Model of Python `set(...)` cardinality: keep the first occurrence of
each distinct value. -/
def pyDedup : List (Option Json) → List (Option Json)
  | [] => []
  | x :: xs => x :: pyDedup (xs.filter (fun y => !(y == x)))
termination_by l => l.length
decreasing_by
  simp only [List.length_cons]
  exact Nat.lt_succ_of_le (List.length_filter_le _ _)

/-- `order_ids = [order.get('order_id') for order in orders if isinstance(order, dict)]`. -/
def extractedOrderIds (os : List Json) : List (Option Json) :=
  (os.filter Json.isObjB).map (fun o => o.get "order_id")

/-- The repetition/loop checks of `_validate_llm_response` on the decoded
order list: more than 20 records, or more than 5 records all sharing one
`order_id`, are rejected. -/
def ordersLoopCheck (os : List Json) : Bool :=
  if os.length > 20 then false
  else
    let ids := extractedOrderIds os
    if ids.length > 5 && (pyDedup ids).length == 1 then false
    else true

/-- The checks of `_validate_llm_response` applied to the decoded JSON:
required fields must be present, and when `orders` is a list it must pass
the repetition/loop checks. -/
def checkDecoded (d : Json) : Bool :=
  if requiredFieldsOk d then
    match d.get "orders" with
    | some (Json.arr os) => ordersLoopCheck os
    | _ => true
  else false

/-- `OpenRouterLLMClient._validate_llm_response` from
`app/clients/llm_client.py`. -/
def validateLLMResponse (t : String) : Bool :=
  if pyStrip t == "" then false
  else if t.length > 3000 then false
  else
    match decodeSpan t with
    | none => false
    | some d => checkDecoded d

/-- The per-order status normalization step of
`OpenRouterLLMClient._normalize_response_json`: a truthy string status is
replaced by its normalization; a truthy non-string status raises
(`.lower()` on a non-string), modelled as `none`; anything else is left
alone, and non-dict entries are skipped. -/
def normalizeOrderStatus (o : Json) : Option Json :=
  match o with
  | Json.obj kvs =>
    match Json.get o "status" with
    | some v =>
      if jsonTruthy v then
        match v with
        | Json.str s => some (Json.obj (insertKV kvs "status" (Json.str (normalize_status s))))
        | _ => none
      else some o
    | none => some o
  | _ => some o

/-- `OpenRouterLLMClient._normalize_response_json` from
`app/clients/llm_client.py`: re-extract the brace span, decode it,
normalize statuses inside `orders`, and re-serialize; on any failure the
original text is returned unchanged. -/
def normalizeResponseJson (t : String) : String :=
  let cs := t.toList
  match pyFind cs lbraceC, pyRFind cs rbraceC with
  | some i, some j =>
    let jt := cleanJsonText (String.mk ((cs.drop i).take (j + 1 - i)))
    match Json.parse jt with
    | some d =>
      match d.get "orders", d with
      | some (Json.arr os), Json.obj kvs =>
        (match os.mapM normalizeOrderStatus with
         | some os' => Json.dumps (Json.obj (insertKV kvs "orders" (Json.arr os')))
         | none => t)
      | _, _ => Json.dumps d
    | none => t
  | _, _ => t

/-- Pydantic validation of one `OrderData` record (`OrderData(**order_data)`):
`order_id` must be a string, `status` must be null/absent or one of the
three enum values, `comment` must be null/absent or a string. -/
def strictDecodeOrder (o : Json) : Option OrderData :=
  match o with
  | Json.obj _ =>
    match Json.get o "order_id" with
    | some (Json.str oid) =>
      let st? := match Json.get o "status" with
        | none => some none
        | some Json.null => some none
        | some (Json.str s) => (statusFromValue s).map some
        | some _ => none
      let cm? := match Json.get o "comment" with
        | none => some none
        | some Json.null => some none
        | some (Json.str s) => some (some s)
        | some _ => none
      match st?, cm? with
      | some st, some cm => some ⟨oid, st, cm⟩
      | _, _ => none
    | _ => none
  | _ => none

/-- Pydantic validation of a whole `LLMResponse` object: `orders` must be
a list of valid records, `requires_correction` a boolean, and
`clarification_question` null/absent or a string. -/
def strictDecodeLLMResponse (d : Json) : Option LLMResponse :=
  match d with
  | Json.obj _ =>
    match Json.get d "orders", Json.get d "requires_correction" with
    | some (Json.arr os), some (Json.bool rc) =>
      (match os.mapM strictDecodeOrder with
       | some orders =>
         match Json.get d "clarification_question" with
         | none => some ⟨orders, rc, none⟩
         | some Json.null => some ⟨orders, rc, none⟩
         | some (Json.str q) => some ⟨orders, rc, some q⟩
         | some _ => none
       | none => none)
    | _, _ => none
  | _ => none

/-- Model of the external `PydanticOutputParser.parse` used by every
client (spec §4.2 step 6, the strict decode): decode the completion as
one JSON document and validate it into the `LLMResponse` shape. -/
def parserParse (t : String) : Option LLMResponse :=
  (Json.parse (pyStrip t)).bind strictDecodeLLMResponse

/-- The last-resort default of `OpenRouterLLMClient._fallback_parse`
(and of `LMStudioLLMClient._fallback_parse` / `OllamaLLMClient._fallback_parse`,
which use the same literal). -/
def fallbackDefaultResult : LLMResponse :=
  ⟨[], true, some "Не удалось обработать данные. Пожалуйста, опишите отчет еще раз."⟩

/-- The default returned by `OpenRouterLLMClient.process_text` when the
backend call (or anything else inside the outer `try`) raises. -/
def processingErrorResult : LLMResponse :=
  ⟨[], true, some "Произошла ошибка при обработке. Пожалуйста, опишите отчет еще раз."⟩

/-- The default returned by `OpenRouterLLMClient.process_text` when
`_validate_llm_response` rejects the completion. -/
def invalidResponseResult : LLMResponse :=
  ⟨[], true, some "Произошла ошибка обработки. Пожалуйста, опишите отчет еще раз."⟩

/-- The per-order step of `OpenRouterLLMClient._fallback_parse`:
normalize a truthy string status (a truthy non-string status raises in
`normalize_status`), then validate the record as pydantic `OrderData`. -/
def fallbackBuildOrder (o : Json) : Option OrderData :=
  match o with
  | Json.obj kvs =>
    (match Json.get o "status" with
     | some v =>
       if jsonTruthy v then
         match v with
         | Json.str s =>
           strictDecodeOrder (Json.obj (insertKV kvs "status" (Json.str (normalize_status s))))
         | _ => none
       else strictDecodeOrder o
     | none => strictDecodeOrder o)
  | _ => none

/-- The shared tail of the `_fallback_parse` bodies: read `orders`
(default `[]`), build each record, and pass `requires_correction`
(default `False`) and `clarification_question` verbatim through pydantic
`LLMResponse` validation. -/
def buildFallbackResponse (d : Json) (buildOrder : Json → Option OrderData) :
    Option LLMResponse :=
  let os? := match Json.get d "orders" with
    | none => some []
    | some (Json.arr xs) => some xs
    | some _ => none
  match os? with
  | some xs =>
    match xs.mapM buildOrder with
    | some orders =>
      match (match Json.get d "requires_correction" with
             | none => some false
             | some (Json.bool b) => some b
             | some _ => none),
            (match Json.get d "clarification_question" with
             | none => some none
             | some Json.null => some none
             | some (Json.str q) => some (some q)
             | some _ => none) with
      | some rc, some cq => some (⟨orders, rc, cq⟩ : LLMResponse)
      | _, _ => none
    | none => none
  | none => none

/-- The decoding part of `OpenRouterLLMClient._fallback_parse`: extract
the brace span, clean control characters, decode, and build the
response; `none` models every raised-and-caught failure. -/
def fallbackDecode (t : String) : Option LLMResponse :=
  let cs := t.toList
  match pyFind cs lbraceC, pyRFind cs rbraceC with
  | some i, some j =>
    let jt := cleanJsonText (String.mk ((cs.drop i).take (j + 1 - i)))
    match Json.parse jt with
    | some d => buildFallbackResponse d fallbackBuildOrder
    | none => none
  | _, _ => none

/-- `OpenRouterLLMClient._fallback_parse` from `app/clients/llm_client.py`. -/
def fallbackParse (t : String) : LLMResponse :=
  (fallbackDecode t).getD fallbackDefaultResult

/-- Outcome of the one external chat-completion call made by
`OpenRouterLLMClient.process_text`: the call raises, or returns a
completion whose content may be `None`. -/
inductive BackendOutcome where
  | raised
  | returned (content : Option String)

/-- The `full_text` construction of `process_text`: the session history
(when non-empty) is joined with the new text by newlines. -/
def fullInputText (text : String) (history : Option (List String)) : String :=
  match history with
  | some h => if h.isEmpty then text else String.intercalate "\n" (h ++ [text])
  | none => text

/-- `OpenRouterLLMClient.process_text` from `app/clients/llm_client.py`,
with the network call abstracted into its outcome: a raised error gives
the generic error default; a completion is validated, normalized,
strictly parsed, and on strict-parse failure fed to `_fallback_parse`. -/
def process_text (text : String) (history : Option (List String))
    (outcome : BackendOutcome) : LLMResponse :=
  let _full := fullInputText text history
  match outcome with
  | .raised => processingErrorResult
  | .returned none => invalidResponseResult
  | .returned (some t) =>
    if validateLLMResponse t then
      match parserParse (normalizeResponseJson t) with
      | some r => r
      | none => fallbackParse t
    else invalidResponseResult

/-- Outcome of the HTTP call made by `OllamaLLMClient.process_text`:
a `requests` network error, any other raised error, or a returned
completion content (empty models a missing/empty `message.content`,
which the code turns into a raised-and-caught exception). -/
inductive OllamaOutcome where
  | netError
  | otherError
  | returned (content : String)

/-- The default returned by `OllamaLLMClient.process_text` on a
`requests` network error. -/
def ollamaUnavailableResult : LLMResponse :=
  ⟨[], true, some "Сервис обработки временно недоступен. Пожалуйста, попробуйте позже."⟩

/-- The default returned by `OllamaLLMClient.process_text` when any
other exception escapes the inner logic. -/
def ollamaErrorResult : LLMResponse :=
  ⟨[], true, some "Произошла ошибка при обработке. Пожалуйста, опишите отчет еще раз."⟩

/-- The `<think> ... </think>` preamble stripping of
`OllamaLLMClient._fallback_parse`: when both markers occur, the text
from the first `<think>` up to the end of the first `</think>` is cut out. -/
def stripThink (t : String) : String :=
  let cs := t.toList
  match findSub cs "<think>".toList, findSub cs "</think>".toList with
  | some i, some j => String.mk (cs.take i ++ cs.drop (j + 8))
  | _, _ => t

/-- The line-surgery loop of `OllamaLLMClient._fix_json_errors`: find the
first line starting (after stripping) with `"order_id"` whose
second-next line starts with `\x7d,`, and replace that second-next line
with `    ]`. -/
def fixLinesGo : List String → List String
  | l0 :: l1 :: l2 :: rest =>
    if pyStartsWith (pyStrip l0) "\"order_id\"" then
      if pyStartsWith (pyStrip l2) "\x7d," then l0 :: l1 :: "    ]" :: rest
      else l0 :: fixLinesGo (l1 :: l2 :: rest)
    else l0 :: fixLinesGo (l1 :: l2 :: rest)
  | ls => ls

/-- `OllamaLLMClient._fix_json_errors` from `app/clients/ollama_client.py`. -/
def fixJsonErrors (jt : String) : String :=
  if containsSub jt.toList "\"orders\": [".toList && !(pyEndsWith (pyRStrip jt) "]") then
    String.intercalate "\n" (fixLinesGo (splitLines jt))
  else jt

/-- The literal `status_map` of `OllamaLLMClient._fallback_parse`, which
translates the Russian enum values to English words (the English words
are not valid `StatusEnum` values, so such records fail validation). -/
def ollamaStatusMap : List (String × String) :=
  [("годно", "approved"), ("в доработку", "rework"), ("в брак", "reject")]

/-- The per-order step of `OllamaLLMClient._fallback_parse`: a string
status is mapped through `status_map` (defaulting to itself), then the
record is validated as pydantic `OrderData`. -/
def ollamaBuildOrder (o : Json) : Option OrderData :=
  match o with
  | Json.obj kvs =>
    (match Json.get o "status" with
     | some (Json.str s) =>
       strictDecodeOrder (Json.obj (insertKV kvs "status"
         (Json.str ((lookupStr ollamaStatusMap s).getD s))))
     | _ => strictDecodeOrder o)
  | _ => none

/-- The decoding part of `OllamaLLMClient._fallback_parse`: strip the
think block, extract the brace span, apply `_fix_json_errors`, decode,
and build the response. -/
def ollamaFallbackDecode (t : String) : Option LLMResponse :=
  let cs := (stripThink t).toList
  match pyFind cs lbraceC, pyRFind cs rbraceC with
  | some i, some j =>
    let jt := fixJsonErrors (String.mk ((cs.drop i).take (j + 1 - i)))
    match Json.parse jt with
    | some d => buildFallbackResponse d ollamaBuildOrder
    | none => none
  | _, _ => none

/-- `OllamaLLMClient._fallback_parse` from `app/clients/ollama_client.py`. -/
def ollamaFallbackParse (t : String) : LLMResponse :=
  (ollamaFallbackDecode t).getD fallbackDefaultResult

/-- `OllamaLLMClient.process_text` from `app/clients/ollama_client.py`,
with the HTTP call abstracted into its outcome. -/
def process_text_ollama (text : String) (history : Option (List String))
    (outcome : OllamaOutcome) : LLMResponse :=
  let _full := fullInputText text history
  match outcome with
  | .netError => ollamaUnavailableResult
  | .otherError => ollamaErrorResult
  | .returned c =>
    if c == "" then ollamaErrorResult
    else
      match parserParse c with
      | some r => r
      | none => ollamaFallbackParse c

/-- The decoding part of `LMStudioLLMClient._fallback_parse`
(`app/clients/lmstudio_client.py`): extract the brace span (no control
character cleaning, no status normalization) and build the response. -/
def lmstudioFallbackDecode (t : String) : Option LLMResponse :=
  let cs := t.toList
  match pyFind cs lbraceC, pyRFind cs rbraceC with
  | some i, some j =>
    match Json.parse (String.mk ((cs.drop i).take (j + 1 - i))) with
    | some d => buildFallbackResponse d strictDecodeOrder
    | none => none
  | _, _ => none

/-- `LMStudioLLMClient._fallback_parse` from `app/clients/lmstudio_client.py`. -/
def lmstudioFallbackParse (t : String) : LLMResponse :=
  (lmstudioFallbackDecode t).getD fallbackDefaultResult

/-- `SessionData` from `app/models/schemas.py`.  Timestamps (`created_at`,
`last_activity`) are modelled as natural numbers; the opaque
uuid-derived `session_id` string is modelled as an abstract fresh
natural token minted from a counter (see `SysState.nextSid`). -/
structure SessionData where
  session_id : Nat
  user_id : Nat
  current_state : BotState := .idle
  previous_state : Option BotState := none
  messages : List String := []
  extracted_orders : List OrderData := []
  pending_data : Option Json := none
  created_at : Nat
  last_activity : Nat

/-- Combined mutable state of `SessionManager` (the in-memory session
dict and the configured timeout) together with the observable effects on
the persistence collaborator used by the state-machine actions:
`savedInspections` records `data_service.save_inspections` calls,
`confirmedDialogues` records `update_dialogue_status(sid, 'confirmed')`
calls and `deletedSessionData` records `delete_session_data` calls. -/
structure SysState where
  sessions : List (Nat × SessionData) := []
  timeout : Nat
  nextSid : Nat := 0
  savedInspections : List (Nat × Nat × List OrderData) := []
  confirmedDialogues : List Nat := []
  deletedSessionData : List Nat := []

/-- Lookup in the per-user session dict (keys are unique). -/
def lookupS : List (Nat × SessionData) → Nat → Option SessionData
  | [], _ => none
  | (k, v) :: rest, uid => if k == uid then some v else lookupS rest uid

/-- Python dict assignment `self.sessions[user_id] = session`
(replace in place, or append when absent). -/
def setS : List (Nat × SessionData) → Nat → SessionData → List (Nat × SessionData)
  | [], uid, s => [(uid, s)]
  | (k, v) :: rest, uid, s =>
    if k == uid then (uid, s) :: rest else (k, v) :: setS rest uid s

/-- Python `del self.sessions[user_id]` (keys are unique). -/
def removeS : List (Nat × SessionData) → Nat → List (Nat × SessionData)
  | [], _ => []
  | (k, v) :: rest, uid => if k == uid then rest else (k, v) :: removeS rest uid

/-- The create-new-session tail of `SessionManager.get_or_create_session`:
mint a fresh `session_id` and store a fresh idle session for the user.
(The `get_or_create_user` database call is an out-of-scope collaborator.) -/
def createFresh (st : SysState) (uid : Nat) (now : Nat) : Nat × SysState :=
  let sid := st.nextSid
  let s : SessionData :=
    { session_id := sid, user_id := uid, current_state := .idle,
      previous_state := none, messages := [], extracted_orders := [],
      pending_data := none, created_at := now, last_activity := now }
  (sid, { st with sessions := setS st.sessions uid s, nextSid := st.nextSid + 1 })

/-- `SessionManager.get_or_create_session` from
`app/services/session_manager.py`: a live session (strictly less than
the timeout since `last_activity`) is refreshed and its id returned; an
expired one is deleted and replaced by a fresh session; a missing one is
created fresh. -/
def getOrCreateSession (st : SysState) (uid : Nat) (now : Nat) : Nat × SysState :=
  match lookupS st.sessions uid with
  | some s =>
    if now - s.last_activity < st.timeout then
      (s.session_id, { st with sessions := setS st.sessions uid ({ s with last_activity := now }) })
    else
      createFresh { st with sessions := removeS st.sessions uid } uid now
  | none => createFresh st uid now

/-- `SessionManager.add_message`: append to the history and touch
`last_activity`; failure (and no change) when the user has no session. -/
def addMessage (st : SysState) (uid : Nat) (message : String) (now : Nat) :
    Bool × SysState :=
  match lookupS st.sessions uid with
  | none => (false, st)
  | some s =>
    let s' : SessionData := { s with messages := s.messages ++ [message], last_activity := now }
    (true, { st with sessions := setS st.sessions uid s' })

/-- `SessionManager.set_extracted_orders`: replace the extracted orders
wholesale and touch `last_activity`; failure when no session. -/
def setExtractedOrders (st : SysState) (uid : Nat) (orders : List OrderData) (now : Nat) :
    Bool × SysState :=
  match lookupS st.sessions uid with
  | none => (false, st)
  | some s =>
    let s' : SessionData := { s with extracted_orders := orders, last_activity := now }
    (true, { st with sessions := setS st.sessions uid s' })

/-- `SessionManager.set_pending_data`: store the side-channel data and
touch `last_activity`; failure when no session. -/
def setPendingData (st : SysState) (uid : Nat) (data : Json) (now : Nat) :
    Bool × SysState :=
  match lookupS st.sessions uid with
  | none => (false, st)
  | some s =>
    let s' : SessionData := { s with pending_data := some data, last_activity := now }
    (true, { st with sessions := setS st.sessions uid s' })

/-- `SessionManager.set_state`: record the previous state, set the new
one and touch `last_activity`; failure when no session. -/
def setState (st : SysState) (uid : Nat) (new_state : BotState) (now : Nat) :
    Bool × SysState :=
  match lookupS st.sessions uid with
  | none => (false, st)
  | some s =>
    let s' : SessionData :=
      { s with previous_state := some s.current_state, current_state := new_state,
               last_activity := now }
    (true, { st with sessions := setS st.sessions uid s' })

/-- `SessionManager.clear_session`: unconditional removal. -/
def clearSession (st : SysState) (uid : Nat) : Bool × SysState :=
  match lookupS st.sessions uid with
  | none => (false, st)
  | some _ => (true, { st with sessions := removeS st.sessions uid })

/-- `SessionManager.get_state`. -/
def getState (st : SysState) (uid : Nat) : Option BotState :=
  (lookupS st.sessions uid).map (·.current_state)

/-- The literal `allowed_transitions` table of
`SessionManager.can_transition_to` (`app/services/session_manager.py`,
lines 327-335). -/
def allowedTransitionsTable : BotState → List BotState
  | .idle => [.processing, .reports_menu]
  | .processing => [.clarification, .confirmation, .cancellation, .idle]
  | .clarification => [.processing, .cancellation]
  | .confirmation => [.idle, .cancellation]
  | .cancellation => [.idle]
  | .reports_menu => [.report_processing, .idle]
  | .report_processing => [.reports_menu, .idle]

/-- `SessionManager.can_transition_to` from
`app/services/session_manager.py`: with no session the only accepted
target is `idle`; otherwise membership of the target in the fixed table
for the current state, with no guard conditions involved. -/
def canTransitionTo (st : SysState) (uid : Nat) (target : BotState) : Bool :=
  match getState st uid with
  | none => target == BotState.idle
  | some c => (allowedTransitionsTable c).contains target

/-- The caller-supplied context dict of the state machine
(`context.get(key, False)` for the guard flags, plus the collaborators
read by the transition actions). -/
structure TransCtx where
  has_input_data : Bool := false
  requested_reports : Bool := false
  requires_clarification : Bool := false
  data_extracted : Bool := false
  user_cancelled : Bool := false
  processing_failed : Bool := false
  clarification_provided : Bool := false
  user_confirmed : Bool := false
  user_rejected : Bool := false
  cancellation_confirmed : Bool := false
  return_to_previous : Bool := false
  previous_state : Option BotState := none
  report_selected : Bool := false
  report_completed : Bool := false
  exit_reports : Bool := false
  hasDataService : Bool := true
  hasSessionManager : Bool := true
  userId : Option Nat := none

/-- Outcome of the out-of-scope `data_service.save_inspections` database
call: it returns a non-empty inspection list, an empty/falsy one, or
raises. -/
inductive PersistOutcome where
  | ok
  | emptyResult
  | raises
deriving DecidableEq, Repr

/-- The side-effecting action attached to a transition. -/
inductive TAction where
  | noAction
  | saveConfirmed
  | clearData
deriving DecidableEq, Repr

/-- `StateMachine._save_confirmed_data` from
`app/services/state_machine.py`: require the collaborators and user id,
require a session with non-empty extracted orders, then persist through
`save_inspections`; on a non-empty result the dialogue status updates
run and the action succeeds — the session store itself is never touched
(in particular the session is NOT cleared); every failure leaves the
state unchanged and reports `False`. -/
def saveConfirmedData (ctx : TransCtx) (st : SysState) (persist : PersistOutcome) :
    Bool × SysState :=
  match ctx.userId with
  | none => (false, st)
  | some uid =>
    if !(ctx.hasDataService && ctx.hasSessionManager) then (false, st)
    else
      match lookupS st.sessions uid with
      | none => (false, st)
      | some s =>
        if s.extracted_orders.isEmpty then (false, st)
        else
          match persist with
          | .ok =>
            (true, { st with
              savedInspections := st.savedInspections ++ [(uid, s.session_id, s.extracted_orders)],
              confirmedDialogues := st.confirmedDialogues ++ [s.session_id] })
          | .emptyResult => (false, st)
          | .raises => (false, st)

/-- `StateMachine._clear_session_data` from `app/services/state_machine.py`:
require the session manager and user id; when a session exists and the
data service is present, delete its unconfirmed database rows; then
clear the in-memory session and succeed. -/
def clearSessionData (ctx : TransCtx) (st : SysState) : Bool × SysState :=
  match ctx.userId with
  | none => (false, st)
  | some uid =>
    if !ctx.hasSessionManager then (false, st)
    else
      let st1 :=
        match lookupS st.sessions uid with
        | some s =>
          if ctx.hasDataService then
            { st with deletedSessionData := st.deletedSessionData ++ [s.session_id] }
          else st
        | none => st
      (true, { st1 with sessions := removeS st1.sessions uid })

/-- One registered `StateTransition` of the machine. -/
structure MTrans where
  fromS : BotState
  toS : BotState
  cond : TransCtx → Bool
  act : TAction

/-- The transitions registered by `StateMachine._setup_transitions`, in
registration order (the per-state buckets of the Python dict preserve
this order). -/
def machineTransitions : List MTrans :=
  [⟨.idle, .processing, (·.has_input_data), .noAction⟩,
   ⟨.idle, .reports_menu, (·.requested_reports), .noAction⟩,
   ⟨.processing, .clarification, (·.requires_clarification), .noAction⟩,
   ⟨.processing, .confirmation, (·.data_extracted), .noAction⟩,
   ⟨.processing, .cancellation, (·.user_cancelled), .noAction⟩,
   ⟨.processing, .idle, (·.processing_failed), .noAction⟩,
   ⟨.clarification, .processing, (·.clarification_provided), .noAction⟩,
   ⟨.clarification, .cancellation, (·.user_cancelled), .noAction⟩,
   ⟨.confirmation, .idle, (·.user_confirmed), .saveConfirmed⟩,
   ⟨.confirmation, .idle, (·.user_rejected), .clearData⟩,
   ⟨.confirmation, .cancellation, (·.user_cancelled), .noAction⟩,
   ⟨.cancellation, .idle, (·.cancellation_confirmed), .clearData⟩,
   ⟨.cancellation, .processing,
     (fun ctx => ctx.return_to_previous && ctx.previous_state == some .processing), .noAction⟩,
   ⟨.cancellation, .clarification,
     (fun ctx => ctx.return_to_previous && ctx.previous_state == some .clarification), .noAction⟩,
   ⟨.cancellation, .confirmation,
     (fun ctx => ctx.return_to_previous && ctx.previous_state == some .confirmation), .noAction⟩,
   ⟨.reports_menu, .report_processing, (·.report_selected), .noAction⟩,
   ⟨.reports_menu, .idle, (·.exit_reports), .noAction⟩,
   ⟨.report_processing, .reports_menu, (·.report_completed), .noAction⟩,
   ⟨.report_processing, .idle, (·.exit_reports), .noAction⟩]

/-- `self.transitions[from_state]`: the registered transitions out of a
state, in registration order. -/
def transitionsFrom (s : BotState) : List MTrans :=
  machineTransitions.filter (fun t => t.fromS == s)

/-- `StateMachine.can_transition` from `app/services/state_machine.py`:
the loop returns the guard value of the FIRST registered transition
whose target matches, and `False` when none matches. -/
def canTransition (fromS toS : BotState) (ctx : TransCtx) : Bool :=
  match (transitionsFrom fromS).find? (fun t => t.toS == toS) with
  | some t => t.cond ctx
  | none => false

/-- Run a transition's action (`StateTransition.execute_action`). -/
def runAction : TAction → TransCtx → SysState → PersistOutcome → Bool × SysState
  | .noAction, _, st, _ => (true, st)
  | .saveConfirmed, ctx, st, persist => saveConfirmedData ctx st persist
  | .clearData, ctx, st, _ => clearSessionData ctx st

/-- `StateMachine.execute_transition` from `app/services/state_machine.py`:
refuse (no state change) unless `can_transition` holds, then run the
action of the first matching transition whose guard holds and return its
success. -/
def executeTransition (fromS toS : BotState) (ctx : TransCtx) (st : SysState)
    (persist : PersistOutcome) : Bool × SysState :=
  if canTransition fromS toS ctx then
    match (transitionsFrom fromS).find? (fun t => t.toS == toS && t.cond ctx) with
    | some t => runAction t.act ctx st persist
    | none => (false, st)
  else (false, st)

set_option maxRecDepth 100000

/-- The safe-failure shape demanded by the spec for every failure
branch: no orders, correction required, and a non-empty clarification
question. -/
def safeFailure (r : LLMResponse) : Bool :=
  r.orders.isEmpty && r.requires_correction &&
    (match r.clarification_question with
     | some q => !(q == "")
     | none => false)

/-- C9: status normalization maps "ok", "готово" and "все в порядке"
(case-insensitively, after stripping) to the approved enum value
"годно", and returns every status not in the synonym table unchanged,
in which case it also fails strict `StatusEnum` validation. -/
theorem normalize_status_c9 :
    (∀ s : String, pyStrip (pyLower s) = "ok" → normalize_status s = "годно")
  ∧ (∀ s : String, pyStrip (pyLower s) = "готово" → normalize_status s = "годно")
  ∧ (∀ s : String, pyStrip (pyLower s) = "все в порядке" → normalize_status s = "годно")
  ∧ (∀ s : String, lookupStr statusMapping (pyStrip (pyLower s)) = none →
      normalize_status s = s ∧ statusFromValue s = none) := by
  have key : ∀ (s target : String), pyStrip (pyLower s) = target →
      lookupStr statusMapping target = some "годно" → normalize_status s = "годно" := by
    intro s target h hl
    cases hb : (s == "") with
    | true =>
      exfalso
      rw [eq_of_beq hb] at h
      have : target = "" := h.symm
      rw [this] at hl
      exact absurd hl (by decide)
    | false =>
      simp only [normalize_status, hb, Bool.false_eq_true, if_false, h, hl]
  refine ⟨fun s h => key s "ok" h (by decide),
          fun s h => key s "готово" h (by decide),
          fun s h => key s "все в порядке" h (by decide),
          fun s h => ⟨?_, ?_⟩⟩
  · cases hb : (s == "") with
    | true =>
      rw [eq_of_beq hb]
      simp [normalize_status]
    | false =>
      simp only [normalize_status, hb, Bool.false_eq_true, if_false, h]
  · cases hv : statusFromValue s with
    | none => rfl
    | some v =>
      exfalso
      unfold statusFromValue at hv
      by_cases h1 : (s == "годно") = true
      · rw [eq_of_beq h1] at h
        exact absurd h (by decide)
      · by_cases h2 : (s == "в доработку") = true
        · rw [eq_of_beq h2] at h
          exact absurd h (by decide)
        · by_cases h3 : (s == "в брак") = true
          · rw [eq_of_beq h3] at h
            exact absurd h (by decide)
          · simp [h1, h2, h3] at hv

/-- Witness for C9 at concrete inputs. -/
theorem normalize_status_c9_witness :
    normalize_status "OK " = "годно" ∧ normalize_status " Готово" = "годно" ∧
    normalize_status "Все в порядке" = "годно" ∧ normalize_status "xyz" = "xyz" ∧
    statusFromValue "xyz" = none :=
  ⟨normalize_status_c9.1 "OK " (by decide),
   normalize_status_c9.2.1 " Готово" (by decide),
   normalize_status_c9.2.2.1 "Все в порядке" (by decide),
   (normalize_status_c9.2.2.2 "xyz" (by decide)).1,
   (normalize_status_c9.2.2.2 "xyz" (by decide)).2⟩

theorem optStrBeqSelf (s : String) :
    ((some (Json.str s) : Option Json) == some (Json.str s)) = true := by
  have h1 : ((some (Json.str s) : Option Json) == some (Json.str s))
      = (Json.str s == Json.str s) := rfl
  rw [h1]
  show Json.beq (Json.str s) (Json.str s) = true
  simp [Json.beq]

theorem pyDedup_replicate (n : Nat) (x : Option Json) (hx : (x == x) = true) :
    pyDedup (List.replicate (n + 1) x) = [x] := by
  rw [List.replicate_succ, pyDedup]
  have hf : (List.replicate n x).filter (fun y => !(y == x)) = [] := by
    apply List.filter_eq_nil_iff.2
    intro a ha
    rw [List.eq_of_mem_replicate ha, hx]
    simp
  rw [hf]
  simp [pyDedup]

theorem ordersLoopCheck_identical (os : List Json) (idv : String)
    (hlen : os.length = 15)
    (hall : ∀ o ∈ os, o.isObjB = true ∧ o.get "order_id" = some (Json.str idv)) :
    ordersLoopCheck os = false := by
  have hfilter : os.filter Json.isObjB = os :=
    List.filter_eq_self.2 (fun o ho => (hall o ho).1)
  have hids : extractedOrderIds os = List.replicate 15 (some (Json.str idv)) := by
    unfold extractedOrderIds
    rw [hfilter]
    apply List.eq_replicate_iff.2
    refine ⟨by simp [hlen], ?_⟩
    intro b hb
    obtain ⟨o, ho, rfl⟩ := List.mem_map.1 hb
    exact (hall o ho).2
  have hd : pyDedup (List.replicate 15 (some (Json.str idv))) = [some (Json.str idv)] :=
    pyDedup_replicate 14 _ (optStrBeqSelf idv)
  simp only [ordersLoopCheck]
  rw [hlen, hids, hd, List.length_replicate]
  norm_num

theorem ordersLoopCheck_toolong (os : List Json) (h : 20 < os.length) :
    ordersLoopCheck os = false := by
  simp [ordersLoopCheck, h]

theorem checkDecoded_false (d : Json) (os : List Json)
    (horders : d.get "orders" = some (Json.arr os))
    (hloop : ordersLoopCheck os = false) : checkDecoded d = false := by
  cases hreq : requiredFieldsOk d with
  | false => simp [checkDecoded, hreq]
  | true => simp [checkDecoded, hreq, horders, hloop]

theorem validateLLMResponse_false (t : String) (d : Json)
    (hdec : decodeSpan t = some d) (hchk : checkDecoded d = false) :
    validateLLMResponse t = false := by
  unfold validateLLMResponse
  split
  · rfl
  · split
    · rfl
    · simp [hdec, hchk]

/-- C1: a completion whose decoded order list has 15 records all sharing
one `order_id` (or any order list longer than 20 records) is rejected by
the repetition/loop check, and `process_text` returns the safe default
with no orders, `requires_correction = true` and a non-empty
clarification question — never the duplicated records. -/
theorem process_text_loop_detection :
    ∀ (text : String) (history : Option (List String)) (t : String) (d : Json)
      (os : List Json) (idv : String),
      decodeSpan t = some d →
      d.get "orders" = some (Json.arr os) →
      ((os.length = 15 ∧ ∀ o ∈ os, o.isObjB = true ∧ o.get "order_id" = some (Json.str idv))
        ∨ 20 < os.length) →
      process_text text history (.returned (some t)) = invalidResponseResult ∧
      invalidResponseResult.orders = [] ∧
      invalidResponseResult.requires_correction = true ∧
      ∃ q, invalidResponseResult.clarification_question = some q ∧ q ≠ "" := by
  intro text history t d os idv hdec horders hcase
  have hloop : ordersLoopCheck os = false := by
    rcases hcase with ⟨hlen, hall⟩ | hlong
    · exact ordersLoopCheck_identical os idv hlen hall
    · exact ordersLoopCheck_toolong os hlong
  have hval : validateLLMResponse t = false :=
    validateLLMResponse_false t d hdec (checkDecoded_false d os horders hloop)
  refine ⟨?_, rfl, rfl, ⟨_, rfl, by decide⟩⟩
  simp [process_text, hval]

/-- A raw completion whose JSON order list is 15 copies of one record. -/
def c1Response : String :=
  "\x7b\"orders\": [" ++ String.intercalate ", "
    (List.replicate 15 "\x7b\"order_id\": \"10409\", \"status\": \"годно\"\x7d") ++
  "], \"requires_correction\": false, \"clarification_question\": null\x7d"

/-- The decoded form of `c1Response`. -/
def c1Decoded : Json := (decodeSpan c1Response).getD Json.null

/-- The decoded order list of `c1Response`. -/
def c1Orders : List Json :=
  match c1Decoded.get "orders" with
  | some (Json.arr xs) => xs
  | _ => []

/-- Witness for C1: the hypotheses of `process_text_loop_detection` hold
at the concrete 15-duplicate completion, and the safe default is returned. -/
theorem process_text_loop_detection_witness :
    decodeSpan c1Response = some c1Decoded ∧
    c1Orders.length = 15 ∧
    process_text "отчет" none (.returned (some c1Response)) = invalidResponseResult := by
  have hmem : ∀ o ∈ c1Orders, o.isObjB = true ∧ o.get "order_id" = some (Json.str "10409") := by
    intro o ho
    have hrep : c1Orders
        = List.replicate 15 (Json.obj [("order_id", Json.str "10409"), ("status", Json.str "годно")]) :=
      rfl
    rw [hrep] at ho
    rw [List.eq_of_mem_replicate ho]
    exact ⟨rfl, rfl⟩
  exact ⟨rfl, rfl,
    (process_text_loop_detection "отчет" none c1Response c1Decoded c1Orders "10409"
      rfl rfl (Or.inl ⟨rfl, hmem⟩)).1⟩

/-- C2: `process_text` (OpenRouter and Ollama variants) is a total
function of the backend outcome — no exception escapes — and every
failure branch (raised backend error, missing content, rejected
validation, strict parse plus fallback both failing) returns a result
with no orders, `requires_correction = true` and a non-empty
clarification question. -/
theorem process_text_c2 :
    ∀ (text : String) (history : Option (List String)),
      (process_text text history .raised = processingErrorResult
        ∧ safeFailure processingErrorResult = true)
    ∧ (process_text text history (.returned none) = invalidResponseResult
        ∧ safeFailure invalidResponseResult = true)
    ∧ (∀ t, validateLLMResponse t = false →
        process_text text history (.returned (some t)) = invalidResponseResult)
    ∧ (∀ t, validateLLMResponse t = true →
        parserParse (normalizeResponseJson t) = none →
        fallbackDecode t = none →
        process_text text history (.returned (some t)) = fallbackDefaultResult
          ∧ safeFailure fallbackDefaultResult = true)
    ∧ (process_text_ollama text history .netError = ollamaUnavailableResult
        ∧ safeFailure ollamaUnavailableResult = true)
    ∧ (process_text_ollama text history .otherError = ollamaErrorResult
        ∧ safeFailure ollamaErrorResult = true)
    ∧ process_text_ollama text history (.returned "") = ollamaErrorResult
    ∧ (∀ c, (c == "") = false → parserParse c = none → ollamaFallbackDecode c = none →
        process_text_ollama text history (.returned c) = fallbackDefaultResult) := by
  intro text history
  refine ⟨⟨rfl, rfl⟩, ⟨rfl, rfl⟩, ?_, ?_, ⟨rfl, rfl⟩, ⟨rfl, rfl⟩, rfl, ?_⟩
  · intro t hv
    simp [process_text, hv]
  · intro t hv hp hf
    refine ⟨?_, rfl⟩
    simp [process_text, hv, hp, fallbackParse, hf]
  · intro c hc hp hf
    simp [process_text_ollama, hc, hp, ollamaFallbackParse, hf]

/-- A completion that passes validation but fails both the strict parse
and the fallback extraction (its status is not a valid enum value). -/
def weirdStatusResponse : String :=
  "\x7b\"orders\": [\x7b\"order_id\": \"1\", \"status\": \"weird\"\x7d], \"requires_correction\": false, \"clarification_question\": null\x7d"

/-- Witness for C2 at concrete outcomes. -/
theorem process_text_c2_witness :
    process_text "x" none .raised = processingErrorResult ∧
    process_text "x" none (.returned (some "nojson")) = invalidResponseResult ∧
    process_text "x" none (.returned (some weirdStatusResponse)) = fallbackDefaultResult ∧
    process_text_ollama "x" none (.returned "nojson") = fallbackDefaultResult := by
  have h := process_text_c2 "x" none
  exact ⟨h.1.1,
         h.2.2.1 "nojson" rfl,
         (h.2.2.2.1 weirdStatusResponse rfl rfl rfl).1,
         h.2.2.2.2.2.2.2 "nojson" rfl rfl rfl⟩

/-- A completion that parses strictly with `requires_correction = true`
and a null `clarification_question`. -/
def c5StrictResponse : String :=
  "\x7b\"orders\": [], \"requires_correction\": true, \"clarification_question\": null\x7d"

/-- The same JSON wrapped in prose, so that it reaches the fallback
extractor as a standalone function. -/
def c5WrappedResponse : String := "Вот результат: " ++ c5StrictResponse

/-- C5 counterexample: the pipeline produces a result with
`requires_correction = true` and a null (hence empty) clarification
question — through the strict path of `process_text` and through
`_fallback_parse` — so the invariant claimed for every produced
`ExtractionResult` fails. -/
theorem extraction_invariant_counterexample :
    (process_text "отчет" none (.returned (some c5StrictResponse))).requires_correction = true
  ∧ (process_text "отчет" none (.returned (some c5StrictResponse))).clarification_question = none
  ∧ (fallbackParse c5WrappedResponse).requires_correction = true
  ∧ (fallbackParse c5WrappedResponse).clarification_question = none :=
  ⟨rfl, rfl, rfl, rfl⟩

/-- C5 amended: the invariant holds for every hard-coded failure/default
result of the pipeline, and each fallback extractor returns exactly that
safe default whenever its decode fails; results decoded from model JSON
(strict path or successful fallback extraction) carry
`requires_correction` and `clarification_question` verbatim and are not
subject to the invariant. -/
theorem pipeline_default_results_invariant :
    (∀ r ∈ [processingErrorResult, invalidResponseResult, fallbackDefaultResult,
            ollamaUnavailableResult, ollamaErrorResult],
        r.requires_correction = true ∧ ∃ q, r.clarification_question = some q ∧ q ≠ "")
  ∧ (∀ t, fallbackDecode t = none → fallbackParse t = fallbackDefaultResult)
  ∧ (∀ t, ollamaFallbackDecode t = none → ollamaFallbackParse t = fallbackDefaultResult)
  ∧ (∀ t, lmstudioFallbackDecode t = none → lmstudioFallbackParse t = fallbackDefaultResult) := by
  refine ⟨?_, ?_, ?_, ?_⟩
  · intro r hr
    fin_cases hr <;> exact ⟨rfl, _, rfl, by decide⟩
  · intro t h
    simp [fallbackParse, h]
  · intro t h
    simp [ollamaFallbackParse, h]
  · intro t h
    simp [lmstudioFallbackParse, h]

/-- Witness for amended C5 at concrete inputs. -/
theorem pipeline_default_results_invariant_witness :
    fallbackParse "пусто" = fallbackDefaultResult ∧
    ollamaFallbackParse "пусто" = fallbackDefaultResult ∧
    lmstudioFallbackParse "пусто" = fallbackDefaultResult ∧
    processingErrorResult.requires_correction = true := by
  have h := pipeline_default_results_invariant
  exact ⟨h.2.1 "пусто" rfl, h.2.2.1 "пусто" rfl, h.2.2.2 "пусто" rfl,
         (h.1 processingErrorResult (by simp)).1⟩

/-- One extracted order used by the concrete scenarios. -/
def demoOrders : List OrderData := [⟨"10409", some StatusEnum.rework, some "не подходит"⟩]

/-- A session sitting in the confirmation state with extracted orders. -/
def demoSession : SessionData :=
  { session_id := 3, user_id := 1, current_state := .confirmation,
    previous_state := some .processing, messages := ["отчет"],
    extracted_orders := demoOrders, pending_data := none,
    created_at := 50, last_activity := 60 }

/-- A store holding `demoSession` for user 1. -/
def demoState : SysState :=
  { sessions := [(1, demoSession)], timeout := 15, nextSid := 4 }

/-- Context of a user confirming their data. -/
def ctxConfirmed : TransCtx := { user_confirmed := true, userId := some 1 }

/-- Context of a user rejecting their data (`user_confirmed` absent). -/
def ctxRejected : TransCtx := { user_rejected := true, userId := some 1 }

/-- C3 evidence: with `user_confirmed` the confirmation→idle transition
is legal and executing it runs the persist action; but with
`user_rejected` alone, `can_transition` consults only the FIRST
registered confirmation→idle edge (guarded by `user_confirmed`) and
returns `False`, so `execute_transition` refuses the transition and the
discard action never runs — contradicting the claimed OR of the two
guards. -/
theorem confirmation_transition_guards :
    canTransition .confirmation .idle ctxConfirmed = true
  ∧ (executeTransition .confirmation .idle ctxConfirmed demoState .ok).1 = true
  ∧ (executeTransition .confirmation .idle ctxConfirmed demoState .ok).2.savedInspections
      = [(1, 3, demoOrders)]
  ∧ canTransition .confirmation .idle ctxRejected = false
  ∧ executeTransition .confirmation .idle ctxRejected demoState .ok = (false, demoState)
  ∧ (executeTransition .confirmation .idle ctxRejected demoState .ok).2.sessions
      = [(1, demoSession)] :=
  ⟨rfl, rfl, rfl, rfl, rfl, rfl⟩

/-- C4 counterexample: executing confirmation→idle with `user_confirmed`
succeeds (and persists), but the user's session is NOT cleared from the
store — `_save_confirmed_data` never touches the session map. -/
theorem execute_confirm_leaves_session_counterexample :
    (executeTransition .confirmation .idle ctxConfirmed demoState .ok).1 = true
  ∧ lookupS (executeTransition .confirmation .idle ctxConfirmed demoState .ok).2.sessions 1
      = some demoSession :=
  ⟨rfl, rfl⟩

/-- C4 amended: executing the confirmed confirmation→idle transition
persists the session's extracted orders to storage and reports success,
but leaves the session (and its `extracted_orders`) in the store — the
handlers clear it separately; when persistence fails (empty result or a
raise), `execute_transition` returns failure and the whole state,
session included, is unchanged. -/
theorem execute_confirm_persists_without_clearing :
    ∀ (st : SysState) (uid : Nat) (s : SessionData) (persist : PersistOutcome),
      lookupS st.sessions uid = some s →
      s.extracted_orders ≠ [] →
      ((persist = PersistOutcome.ok →
          executeTransition .confirmation .idle
              { user_confirmed := true, userId := some uid } st persist
            = (true, { st with
                savedInspections :=
                  st.savedInspections ++ [(uid, s.session_id, s.extracted_orders)],
                confirmedDialogues := st.confirmedDialogues ++ [s.session_id] }))
       ∧ (persist ≠ PersistOutcome.ok →
          executeTransition .confirmation .idle
              { user_confirmed := true, userId := some uid } st persist
            = (false, st))) := by
  intro st uid s persist hlook hne
  have hexec : executeTransition .confirmation .idle
      { user_confirmed := true, userId := some uid } st persist
      = saveConfirmedData { user_confirmed := true, userId := some uid } st persist := rfl
  have hie : s.extracted_orders.isEmpty = false := by
    cases h : s.extracted_orders with
    | nil => exact absurd h hne
    | cons a l => rfl
  constructor
  · intro hp
    subst hp
    rw [hexec]
    simp [saveConfirmedData, hlook, hie]
  · intro hp
    rw [hexec]
    cases persist with
    | ok => exact absurd rfl hp
    | emptyResult => simp [saveConfirmedData, hlook, hie]
    | raises => simp [saveConfirmedData, hlook, hie]

/-- Witness for amended C4 at the concrete store. -/
theorem execute_confirm_persists_without_clearing_witness :
    executeTransition .confirmation .idle ctxConfirmed demoState .raises = (false, demoState)
  ∧ (executeTransition .confirmation .idle ctxConfirmed demoState .ok).2.sessions
      = demoState.sessions := by
  have h1 := execute_confirm_persists_without_clearing demoState 1 demoSession .raises rfl (by decide)
  have h2 := execute_confirm_persists_without_clearing demoState 1 demoSession .ok rfl (by decide)
  refine ⟨h1.2 (by decide), ?_⟩
  exact congrArg (fun p => p.2.sessions) (h2.1 rfl)

theorem lookupS_setS_self (l : List (Nat × SessionData)) (uid : Nat) (s : SessionData) :
    lookupS (setS l uid s) uid = some s := by
  induction l with
  | nil => simp [setS, lookupS]
  | cons p rest ih =>
    obtain ⟨k, v⟩ := p
    cases hk : (k == uid) with
    | true => simp [setS, hk, lookupS]
    | false => simp [setS, hk, lookupS, ih]

theorem lookupS_mem (l : List (Nat × SessionData)) (uid : Nat) (s : SessionData) :
    lookupS l uid = some s → (uid, s) ∈ l := by
  induction l with
  | nil => intro h; cases h
  | cons p rest ih =>
    obtain ⟨k, v⟩ := p
    intro h
    cases hk : (k == uid) with
    | true =>
      simp only [lookupS, hk, if_true] at h
      cases h
      rw [← eq_of_beq hk]
      exact List.mem_cons_self _ _
    | false =>
      simp only [lookupS, hk, Bool.false_eq_true, if_false] at h
      exact List.mem_cons_of_mem _ (ih h)

theorem mem_setS (l : List (Nat × SessionData)) (uid : Nat) (s : SessionData)
    (p : Nat × SessionData) : p ∈ setS l uid s → p = (uid, s) ∨ p ∈ l := by
  induction l with
  | nil =>
    intro h
    simp [setS] at h
    exact Or.inl h
  | cons q rest ih =>
    obtain ⟨k, v⟩ := q
    intro h
    cases hk : (k == uid) with
    | true =>
      rw [setS, hk] at h
      simp only [if_true] at h
      rcases List.mem_cons.mp h with h1 | h1
      · exact Or.inl h1
      · exact Or.inr (List.mem_cons_of_mem _ h1)
    | false =>
      rw [setS, hk] at h
      simp only [Bool.false_eq_true, if_false] at h
      rcases List.mem_cons.mp h with h1 | h1
      · exact Or.inr (h1 ▸ List.mem_cons_self _ _)
      · rcases ih h1 with h2 | h2
        · exact Or.inl h2
        · exact Or.inr (List.mem_cons_of_mem _ h2)

theorem mem_removeS (l : List (Nat × SessionData)) (uid : Nat) (p : Nat × SessionData) :
    p ∈ removeS l uid → p ∈ l := by
  induction l with
  | nil => intro h; cases h
  | cons q rest ih =>
    obtain ⟨k, v⟩ := q
    intro h
    cases hk : (k == uid) with
    | true =>
      rw [removeS, hk] at h
      simp only [if_true] at h
      exact List.mem_cons_of_mem _ h
    | false =>
      rw [removeS, hk] at h
      simp only [Bool.false_eq_true, if_false] at h
      rcases List.mem_cons.mp h with h1 | h1
      · exact h1 ▸ List.mem_cons_self _ _
      · exact List.mem_cons_of_mem _ (ih h1)

/-- Freshness invariant of the session-id counter: every stored session
id was minted below the next value. -/
def idsBelowNextB (st : SysState) : Bool :=
  st.sessions.all (fun p => decide (p.2.session_id < st.nextSid))

/-- C6: under the freshness invariant, `get_or_create_session` on an
expired session (at least the timeout since `last_activity`) discards it
and creates a fresh idle session whose id differs from the expired one,
while a live session keeps its id and only has `last_activity`
refreshed; the invariant is preserved, so ids are never reused across an
expiry boundary. -/
theorem get_or_create_session_c6 :
    ∀ (st : SysState) (uid now : Nat) (s : SessionData),
      idsBelowNextB st = true →
      lookupS st.sessions uid = some s →
      ((st.timeout ≤ now - s.last_activity →
         (getOrCreateSession st uid now).1 ≠ s.session_id ∧
         (∃ s', lookupS (getOrCreateSession st uid now).2.sessions uid = some s' ∧
            s'.session_id = (getOrCreateSession st uid now).1 ∧
            s'.last_activity = now ∧ s'.current_state = BotState.idle ∧
            s'.extracted_orders = []) ∧
         idsBelowNextB (getOrCreateSession st uid now).2 = true)
       ∧ (now - s.last_activity < st.timeout →
         (getOrCreateSession st uid now).1 = s.session_id ∧
         lookupS (getOrCreateSession st uid now).2.sessions uid
           = some { s with last_activity := now } ∧
         idsBelowNextB (getOrCreateSession st uid now).2 = true)) := by
  intro st uid now s hinv hlook
  have hmem : (uid, s) ∈ st.sessions := lookupS_mem _ _ _ hlook
  have hsid : s.session_id < st.nextSid :=
    of_decide_eq_true ((List.all_eq_true.mp hinv) _ hmem)
  constructor
  · intro hexp
    have hcond : ¬ (now - s.last_activity < st.timeout) := Nat.not_lt.2 hexp
    have hres : getOrCreateSession st uid now
        = createFresh { st with sessions := removeS st.sessions uid } uid now := by
      unfold getOrCreateSession
      rw [hlook]
      simp [hcond]
    rw [hres]
    refine ⟨?_, ⟨_, lookupS_setS_self _ _ _, rfl, rfl, rfl, rfl⟩, ?_⟩
    · exact (Nat.ne_of_lt hsid).symm
    · apply List.all_eq_true.mpr
      intro p hp
      rcases mem_setS _ _ _ _ hp with rfl | hp'
      · exact decide_eq_true (Nat.lt_succ_self _)
      · have hp2 := mem_removeS _ _ _ hp'
        have hlt := of_decide_eq_true ((List.all_eq_true.mp hinv) _ hp2)
        exact decide_eq_true (Nat.lt_succ_of_lt hlt)
  · intro hlive
    have hres : getOrCreateSession st uid now
        = (s.session_id,
           { st with sessions := setS st.sessions uid ({ s with last_activity := now }) }) := by
      unfold getOrCreateSession
      rw [hlook]
      simp [hlive]
    rw [hres]
    refine ⟨rfl, lookupS_setS_self _ _ _, ?_⟩
    apply List.all_eq_true.mpr
    intro p hp
    rcases mem_setS _ _ _ _ hp with rfl | hp'
    · exact decide_eq_true hsid
    · exact (List.all_eq_true.mp hinv) _ hp'

/-- Witness for C6: an expired session (40 time units past a timeout of
15) is replaced under a fresh id, a live one keeps its id. -/
theorem get_or_create_session_c6_witness :
    (getOrCreateSession demoState 1 100).1 ≠ demoSession.session_id ∧
    (getOrCreateSession demoState 1 70).1 = demoSession.session_id := by
  have h := get_or_create_session_c6 demoState 1 100 demoSession rfl rfl
  have h2 := get_or_create_session_c6 demoState 1 70 demoSession rfl rfl
  exact ⟨(h.1 (by decide)).1, (h2.2 (by decide)).1⟩

/-- The `last_activity` of a user's stored session, if any. -/
def lastActivityOf (st : SysState) (uid : Nat) : Option Nat :=
  (lookupS st.sessions uid).map SessionData.last_activity

/-- C7: `add_message`, `set_extracted_orders`, `set_pending_data` and
`set_state` all fail and leave the store untouched when the user has no
session, and all set the session's `last_activity` to the current time
when one exists. -/
theorem session_ops_c7 :
    ∀ (st : SysState) (uid now : Nat) (msg : String) (orders : List OrderData)
      (data : Json) (ns : BotState),
      (lookupS st.sessions uid = none →
        addMessage st uid msg now = (false, st) ∧
        setExtractedOrders st uid orders now = (false, st) ∧
        setPendingData st uid data now = (false, st) ∧
        setState st uid ns now = (false, st))
    ∧ (∀ s, lookupS st.sessions uid = some s →
        ((addMessage st uid msg now).1 = true ∧
          lastActivityOf (addMessage st uid msg now).2 uid = some now) ∧
        ((setExtractedOrders st uid orders now).1 = true ∧
          lastActivityOf (setExtractedOrders st uid orders now).2 uid = some now) ∧
        ((setPendingData st uid data now).1 = true ∧
          lastActivityOf (setPendingData st uid data now).2 uid = some now) ∧
        ((setState st uid ns now).1 = true ∧
          lastActivityOf (setState st uid ns now).2 uid = some now)) := by
  intro st uid now msg orders data ns
  constructor
  · intro h
    exact ⟨by simp [addMessage, h], by simp [setExtractedOrders, h],
           by simp [setPendingData, h], by simp [setState, h]⟩
  · intro s h
    refine ⟨⟨?_, ?_⟩, ⟨?_, ?_⟩, ⟨?_, ?_⟩, ⟨?_, ?_⟩⟩ <;>
      simp [addMessage, setExtractedOrders, setPendingData, setState, h,
            lastActivityOf, lookupS_setS_self]

/-- Witness for C7: user 2 has no session (failure, store unchanged);
user 1 has one (success, `last_activity` touched). -/
theorem session_ops_c7_witness :
    addMessage demoState 2 "ещё" 70 = (false, demoState) ∧
    (addMessage demoState 1 "ещё" 70).1 = true ∧
    lastActivityOf (addMessage demoState 1 "ещё" 70).2 1 = some 70 ∧
    lastActivityOf (setState demoState 1 BotState.idle 80).2 1 = some 80 := by
  have h0 := (session_ops_c7 demoState 2 70 "ещё" [] Json.null BotState.idle).1 rfl
  have h1 := (session_ops_c7 demoState 1 70 "ещё" [] Json.null BotState.idle).2 demoSession rfl
  have h2 := (session_ops_c7 demoState 1 80 "ещё" [] Json.null BotState.idle).2 demoSession rfl
  exact ⟨h0.1, h1.1.1, h1.1.2, h2.2.2.2.2⟩

/-- One mutating session-store operation, with its payload. -/
inductive SOp where
  | getOrCreate
  | addMsg (message : String)
  | setOrders (orders : List OrderData)
  | setPending (data : Json)
  | setStateOp (s : BotState)

/-- Apply one store operation for a user at a given time, keeping the
resulting state. -/
def applyOp (st : SysState) (uid : Nat) : SOp → Nat → SysState
  | .getOrCreate, now => (getOrCreateSession st uid now).2
  | .addMsg m, now => (addMessage st uid m now).2
  | .setOrders os, now => (setExtractedOrders st uid os now).2
  | .setPending d, now => (setPendingData st uid d now).2
  | .setStateOp s, now => (setState st uid s now).2

/-- Apply a sequence of timestamped store operations for one user. -/
def applySeq (st : SysState) (uid : Nat) : List (SOp × Nat) → SysState
  | [] => st
  | (op, t) :: rest => applySeq (applyOp st uid op t) uid rest

/-- The wall clock never runs backwards along the sequence: each
timestamp is at least the previous one (and at least the start value). -/
def timesMonoB : Nat → List (SOp × Nat) → Bool
  | _, [] => true
  | t0, (_, t) :: rest => decide (t0 ≤ t) && timesMonoB t rest

theorem timesMonoB_anti (l : List (SOp × Nat)) (t t' : Nat) (hle : t' ≤ t)
    (h : timesMonoB t l = true) : timesMonoB t' l = true := by
  cases l with
  | nil => rfl
  | cons p rest =>
    obtain ⟨op, u⟩ := p
    rw [timesMonoB, Bool.and_eq_true] at h
    rw [timesMonoB, Bool.and_eq_true]
    exact ⟨decide_eq_true (Nat.le_trans hle (of_decide_eq_true h.1)), h.2⟩

theorem applyOp_touch (op : SOp) (st : SysState) (uid now : Nat) (s : SessionData)
    (hlook : lookupS st.sessions uid = some s) (hle : s.last_activity ≤ now) :
    ∃ s', lookupS (applyOp st uid op now).sessions uid = some s' ∧
      s.last_activity ≤ s'.last_activity ∧ s'.last_activity ≤ now := by
  cases op with
  | getOrCreate =>
    by_cases hc : now - s.last_activity < st.timeout
    · have hs : (applyOp st uid SOp.getOrCreate now).sessions
          = setS st.sessions uid ({ s with last_activity := now }) := by
        simp [applyOp, getOrCreateSession, hlook, hc]
      exact ⟨_, by rw [hs]; exact lookupS_setS_self _ _ _, hle, Nat.le_refl now⟩
    · have hs : (applyOp st uid SOp.getOrCreate now).sessions
          = setS (removeS st.sessions uid) uid
              { session_id := st.nextSid, user_id := uid, current_state := .idle,
                previous_state := none, messages := [], extracted_orders := [],
                pending_data := none, created_at := now, last_activity := now } := by
        simp [applyOp, getOrCreateSession, hlook, hc, createFresh]
      exact ⟨_, by rw [hs]; exact lookupS_setS_self _ _ _, hle, Nat.le_refl now⟩
  | addMsg m =>
    have hs : (applyOp st uid (SOp.addMsg m) now).sessions
        = setS st.sessions uid
            ({ s with messages := s.messages ++ [m], last_activity := now }) := by
      simp [applyOp, addMessage, hlook]
    exact ⟨_, by rw [hs]; exact lookupS_setS_self _ _ _, hle, Nat.le_refl now⟩
  | setOrders os =>
    have hs : (applyOp st uid (SOp.setOrders os) now).sessions
        = setS st.sessions uid ({ s with extracted_orders := os, last_activity := now }) := by
      simp [applyOp, setExtractedOrders, hlook]
    exact ⟨_, by rw [hs]; exact lookupS_setS_self _ _ _, hle, Nat.le_refl now⟩
  | setPending d =>
    have hs : (applyOp st uid (SOp.setPending d) now).sessions
        = setS st.sessions uid ({ s with pending_data := some d, last_activity := now }) := by
      simp [applyOp, setPendingData, hlook]
    exact ⟨_, by rw [hs]; exact lookupS_setS_self _ _ _, hle, Nat.le_refl now⟩
  | setStateOp ns =>
    have hs : (applyOp st uid (SOp.setStateOp ns) now).sessions
        = setS st.sessions uid
            ({ s with previous_state := some s.current_state, current_state := ns,
                      last_activity := now }) := by
      simp [applyOp, setState, hlook]
    exact ⟨_, by rw [hs]; exact lookupS_setS_self _ _ _, hle, Nat.le_refl now⟩

/-- C8: across any sequence of store operations on one user's session
(`get_or_create`, `add_message`, `set_extracted_orders`,
`set_pending_data`, `set_state`) run at non-decreasing wall-clock times,
the session's `last_activity` is monotonically non-decreasing. -/
theorem last_activity_monotone :
    ∀ (ops : List (SOp × Nat)) (st : SysState) (uid : Nat) (s : SessionData),
      lookupS st.sessions uid = some s →
      timesMonoB s.last_activity ops = true →
      ∃ s', lookupS (applySeq st uid ops).sessions uid = some s' ∧
        s.last_activity ≤ s'.last_activity := by
  intro ops
  induction ops with
  | nil =>
    intro st uid s h _
    exact ⟨s, h, Nat.le_refl _⟩
  | cons p rest ih =>
    obtain ⟨op, t⟩ := p
    intro st uid s h hmono
    rw [timesMonoB, Bool.and_eq_true] at hmono
    have hle : s.last_activity ≤ t := of_decide_eq_true hmono.1
    obtain ⟨s1, hl1, hge1, hub1⟩ := applyOp_touch op st uid t s h hle
    have hmono1 : timesMonoB s1.last_activity rest = true :=
      timesMonoB_anti rest t s1.last_activity hub1 hmono.2
    obtain ⟨s', hl', hge'⟩ := ih (applyOp st uid op t) uid s1 hl1 hmono1
    exact ⟨s', hl', Nat.le_trans hge1 hge'⟩

/-- A concrete operation sequence crossing an expiry boundary. -/
def c8Ops : List (SOp × Nat) :=
  [(SOp.addMsg "ещё", 70), (SOp.getOrCreate, 200), (SOp.setOrders demoOrders, 205)]

/-- Witness for C8 on a concrete run (`last_activity` goes 60 → 205). -/
theorem last_activity_monotone_witness :
    lastActivityOf (applySeq demoState 1 c8Ops) 1 = some 205 ∧
    ∃ s', lookupS (applySeq demoState 1 c8Ops).sessions 1 = some s' ∧
      demoSession.last_activity ≤ s'.last_activity :=
  ⟨rfl, last_activity_monotone c8Ops demoState 1 demoSession rfl rfl⟩

/-- C10: with no session for the user, `can_transition_to` accepts
exactly the `idle` target; with a session, it is exactly membership of
the target in the fixed allowed-transition table for the session's
current state, with no guard conditions involved. -/
theorem can_transition_to_c10 :
    ∀ (st : SysState) (uid : Nat) (target : BotState),
      (lookupS st.sessions uid = none →
        canTransitionTo st uid target = (target == BotState.idle))
    ∧ (∀ s, lookupS st.sessions uid = some s →
        canTransitionTo st uid target
          = (allowedTransitionsTable s.current_state).contains target) := by
  intro st uid target
  constructor
  · intro h
    simp [canTransitionTo, getState, h]
  · intro s h
    simp [canTransitionTo, getState, h]

/-- Witness for C10: no session for user 2 (only `idle` accepted); user
1 is in `confirmation` (only `idle` and `cancellation` accepted). -/
theorem can_transition_to_c10_witness :
    canTransitionTo demoState 2 BotState.idle = true ∧
    canTransitionTo demoState 2 BotState.processing = false ∧
    canTransitionTo demoState 1 BotState.cancellation = true ∧
    canTransitionTo demoState 1 BotState.processing = false := by
  have h2i := (can_transition_to_c10 demoState 2 BotState.idle).1 rfl
  have h2p := (can_transition_to_c10 demoState 2 BotState.processing).1 rfl
  have h1c := (can_transition_to_c10 demoState 1 BotState.cancellation).2 demoSession rfl
  have h1p := (can_transition_to_c10 demoState 1 BotState.processing).2 demoSession rfl
  exact ⟨h2i.trans rfl, h2p.trans rfl, h1c.trans rfl, h1p.trans rfl⟩
